import Mathlib

/-
Verification development for the MUSICAv0-workflows repository.

Embedded here are:
  * the weekday-preserving date shifts of
    `grids/ne0CONUSne30x8/emissions/NEIfileDatetime_shift_BYweekofday.py`
    (functions `NEIfileDatetime_shift_BYweekofday` and
    `NEIfileDatetime_shift_BACKWARDto2017`, built on Python `datetime`,
    `timedelta` and `dateutil.relativedelta`),
  * the region-scaling loop of
    `grids/ne0CONUSne30x8/emissions/ne30CONUSne30x8_scale_emissions_by_Canadaregion_c20260212.py`
    (function `scale_bb_emissions_by_mask`), and
  * the expected-file enumeration of
    `grids/ne0CONUSne30x8/utilities/find_missing_files.py`
    (function `find_missing_files_v1`).

Calendar model: the proleptic Gregorian calendar of Python `datetime`.
The ordinal formula below is Python's own `datetime._ymd2ord`
(`_days_before_year` and `_days_before_month`), with the year extended
from Python's 1..9999 range to all of ℤ.  Integer `/` and `%` in Lean
agree with Python `//` and `%` here because every divisor involved is
positive.
-/

/-- Gregorian leap-year rule, as Python `calendar.isleap` and as used by
`datetime`. -/
def isLeap (y : ℤ) : Prop := y % 4 = 0 ∧ (y % 100 ≠ 0 ∨ y % 400 = 0)

instance (y : ℤ) : Decidable (isLeap y) := by unfold isLeap; infer_instance

/-- Number of days in a month, as Python `calendar.monthrange(y, m)[1]`
(`_days_in_month` in `datetime`). -/
def daysInMonth (y : ℤ) (m : ℕ) : ℕ :=
  if m = 2 then (if isLeap y then 29 else 28)
  else if m = 4 ∨ m = 6 ∨ m = 9 ∨ m = 11 then 30
  else 31

/-- Cumulative day counts before each month in a non-leap year, the
`_DAYS_BEFORE_MONTH` table of Python `datetime`. -/
def daysBeforeMonthBase (m : ℕ) : ℤ :=
  if m = 1 then 0 else if m = 2 then 31 else if m = 3 then 59
  else if m = 4 then 90 else if m = 5 then 120 else if m = 6 then 151
  else if m = 7 then 181 else if m = 8 then 212 else if m = 9 then 243
  else if m = 10 then 273 else if m = 11 then 304 else 334

/-- Days before January 1 of year `y`, Python `datetime._days_before_year`. -/
def daysBeforeYear (y : ℤ) : ℤ :=
  (y - 1) * 365 + (y - 1) / 4 - (y - 1) / 100 + (y - 1) / 400

/-- A calendar date, the date part of a Python `datetime` value (year
extended to ℤ). -/
structure Date where
  year : ℤ
  month : ℕ
  day : ℕ
deriving DecidableEq

/-- The ranges enforced by the Python `datetime` constructor for month and
day (the year range 1..9999 is tracked separately where it matters). -/
def Date.Valid (d : Date) : Prop :=
  1 ≤ d.month ∧ d.month ≤ 12 ∧ 1 ≤ d.day ∧ d.day ≤ daysInMonth d.year d.month

instance (d : Date) : Decidable d.Valid := by unfold Date.Valid; infer_instance

/-- Python `date.toordinal` (`_ymd2ord`): day number in the proleptic
Gregorian calendar with `0001-01-01` as day 1. -/
def toOrdinal (d : Date) : ℤ :=
  daysBeforeYear d.year + daysBeforeMonthBase d.month
    + (if 2 < d.month ∧ isLeap d.year then 1 else 0) + d.day

/-- Python `date.weekday`: Monday = 0 .. Sunday = 6. -/
def weekday (d : Date) : ℤ := (toOrdinal d + 6) % 7

/-- The calendar-level predecessor: moving one day backward, as Python
date arithmetic with `timedelta(days=1)` does. -/
def predDay (d : Date) : Date :=
  if 1 < d.day then ⟨d.year, d.month, d.day - 1⟩
  else if 1 < d.month then ⟨d.year, d.month - 1, daysInMonth d.year (d.month - 1)⟩
  else ⟨d.year - 1, 12, 31⟩

/-- The calendar-level successor: moving one day forward, as Python date
arithmetic with `timedelta(days=1)` does. -/
def succDay (d : Date) : Date :=
  if d.day < daysInMonth d.year d.month then ⟨d.year, d.month, d.day + 1⟩
  else if d.month < 12 then ⟨d.year, d.month + 1, 1⟩
  else ⟨d.year + 1, 1, 1⟩

/-- Adding `n` years as `dateutil.relativedelta(years=n)` does: replace the
year and clamp the day to the length of the resulting month (the
`day = min(calendar.monthrange(year, month)[1], day)` normalization inside
`relativedelta`). -/
def addYears (d : Date) (n : ℤ) : Date :=
  ⟨d.year + n, d.month, min d.day (daysInMonth (d.year + n) d.month)⟩

/-- A Python naive `datetime` value. -/
structure DateTime where
  date : Date
  hour : ℕ
  minute : ℕ
  second : ℕ
deriving DecidableEq

/-- The field ranges enforced by the Python `datetime` constructor (year
range aside, which is tracked separately where it matters). -/
def DateTime.Valid (t : DateTime) : Prop :=
  t.date.Valid ∧ t.hour ≤ 23 ∧ t.minute ≤ 59 ∧ t.second ≤ 59

instance (t : DateTime) : Decidable t.Valid := by unfold DateTime.Valid; infer_instance

/-- Lines 43-58 of `NEIfileDatetime_shift_BYweekofday`, at the datetime
level.  `(outp - inp).days` equals the ordinal difference because the
year-shifted timestamp keeps the source time of day, Python `%` on ints is
floored modulo, and `+ timedelta(days=-remaining_days)` moves the date
`remaining_days` days backward. -/
def shiftBYweekofdayCore (t : DateTime) (outyear : ℤ) : DateTime :=
  let nyears := outyear - t.date.year
  let outp := addYears t.date nyears
  let delta_days := toOrdinal outp - toOrdinal t.date
  let remaining_days := delta_days % 7
  ⟨predDay^[remaining_days.toNat] outp, t.hour, t.minute, t.second⟩

/-- Lines 94-112 of `NEIfileDatetime_shift_BACKWARDto2017`, at the
datetime level.  The `outyear` parameter mirrors the Python signature; the
body never reads it, since line 97 hard-codes the reference year 2017.
`+ timedelta(days=remaining_days)` moves the date forward here. -/
def shiftBACKWARDto2017Core (t : DateTime) (outyear : ℤ) : DateTime :=
  let nyears := t.date.year - 2017
  let inp := addYears t.date (-nyears)
  let delta_days := toOrdinal t.date - toOrdinal inp
  let remaining_days := delta_days % 7
  ⟨succDay^[remaining_days.toNat] inp, t.hour, t.minute, t.second⟩

/-- Numeric value of a digit run (the parsed field is converted with
`int()`). -/
def natOfDigits (cs : List Char) : ℕ := cs.foldl (fun a c => 10 * a + (c.toNat - 48)) 0

/-- Split off the maximal leading digit run. -/
def takeRun (cs : List Char) : List Char × List Char :=
  (cs.takeWhile Char.isDigit, cs.dropWhile Char.isDigit)

/-- Consume one expected literal character. -/
def expectChar (c : Char) : List Char → Option (List Char)
  | [] => none
  | x :: xs => if x = c then some xs else none

/-- The regular-expression stage of CPython
`_strptime` for the format `'%Y-%m-%d_%H:%M:%S'`.  CPython compiles the
directives to `%Y ↦ \d\d\d\d`, `%m ↦ 1[0-2]|0[1-9]|[1-9]`,
`%d ↦ 3[01]|[12]\d|0[1-9]|[1-9]`, `%H ↦ 2[0-3]|[0-1]\d|\d`,
`%M ↦ [0-5]\d|\d` and `%S ↦ 6[0-1]|[0-5]\d|\d`; since every directive here
is followed by a literal non-digit (or by the end of the string, where any
unconverted rest raises), each field must consume its entire maximal digit
run, so the alternations reduce to the run-length/value tests below.  A
nonempty remainder raises `unconverted data remains`. -/
def parseFields (cs : List Char) : Option (ℕ × ℕ × ℕ × ℕ × ℕ × ℕ) := do
  let (ys, r1) := takeRun cs
  guard (ys.length = 4)
  let r2 ← expectChar '-' r1
  let (ms, r3) := takeRun r2
  guard (ms.length = 1 ∧ 1 ≤ natOfDigits ms ∧ natOfDigits ms ≤ 9 ∨
         ms.length = 2 ∧ 1 ≤ natOfDigits ms ∧ natOfDigits ms ≤ 12)
  let r4 ← expectChar '-' r3
  let (ds, r5) := takeRun r4
  guard (ds.length = 1 ∧ 1 ≤ natOfDigits ds ∧ natOfDigits ds ≤ 9 ∨
         ds.length = 2 ∧ 1 ≤ natOfDigits ds ∧ natOfDigits ds ≤ 31)
  let r6 ← expectChar '_' r5
  let (hs, r7) := takeRun r6
  guard (hs.length = 1 ∧ natOfDigits hs ≤ 9 ∨ hs.length = 2 ∧ natOfDigits hs ≤ 23)
  let r8 ← expectChar ':' r7
  let (mis, r9) := takeRun r8
  guard (mis.length = 1 ∧ natOfDigits mis ≤ 9 ∨ mis.length = 2 ∧ natOfDigits mis ≤ 59)
  let r10 ← expectChar ':' r9
  let (ss, r11) := takeRun r10
  guard (ss.length = 1 ∧ natOfDigits ss ≤ 9 ∨ ss.length = 2 ∧ natOfDigits ss ≤ 61)
  guard (r11 = [])
  pure (natOfDigits ys, natOfDigits ms, natOfDigits ds,
        natOfDigits hs, natOfDigits mis, natOfDigits ss)

/-- The validation performed by the `datetime` constructor, which
`_strptime_datetime` calls on the matched fields: `MINYEAR ≤ year ≤
MAXYEAR`, `1 ≤ month ≤ 12`, `1 ≤ day ≤ days_in_month`, `hour ≤ 23`,
`minute ≤ 59`, `second ≤ 59`. -/
def mkDatetime (y m d h mi s : ℕ) : Option DateTime :=
  if 1 ≤ y ∧ y ≤ 9999 ∧ 1 ≤ m ∧ m ≤ 12 ∧ 1 ≤ d ∧ d ≤ daysInMonth y m ∧
     h ≤ 23 ∧ mi ≤ 59 ∧ s ≤ 59
  then some ⟨⟨(y : ℤ), m, d⟩, h, mi, s⟩ else none

/-- Python `datetime.strptime(s, '%Y-%m-%d_%H:%M:%S')` on a character
list: the regex stage followed by the constructor validation. -/
def strptimeYmdHMS (cs : List Char) : Option DateTime :=
  match parseFields cs with
  | none => none
  | some (y, m, d, h, mi, s) => mkDatetime y m d h mi s

/-- Zero-padded decimal rendering of width `w`. -/
def padNum (w n : ℕ) : String :=
  String.mk (List.replicate (w - (toString n).length) '0') ++ toString n

/-- Python `datetime.strftime('%Y-%m-%d_%H:%M:%S')` for the year range
1..9999 used here (each numeric directive zero-padded). -/
def formatYmdHMS (t : DateTime) : String :=
  padNum 4 t.date.year.toNat ++ "-" ++ padNum 2 t.date.month ++ "-"
    ++ padNum 2 t.date.day ++ "_" ++ padNum 2 t.hour ++ ":"
    ++ padNum 2 t.minute ++ ":" ++ padNum 2 t.second

/-- `NEIfileDatetime_shift_BYweekofday(inpNEIfile, outyear)`: parse
`inpNEIfile[13:]` with strptime (line 40), shift (lines 43-58), and
reassemble with the literal prefix `'wrfchemi_d01_'` (line 68).  A
`none` result models the `ValueError` raised by `strptime`. -/
def NEIfileDatetime_shift_BYweekofday (inpNEIfile : String) (outyear : ℤ) : Option String :=
  (strptimeYmdHMS (inpNEIfile.toList.drop 13)).map fun t =>
    "wrfchemi_d01_" ++ formatYmdHMS (shiftBYweekofdayCore t outyear)

/-- `NEIfileDatetime_shift_BACKWARDto2017(outpNEIfile_datetime, outyear)`:
parse the whole argument (line 94), shift backward (lines 97-112), and
return the bare formatted datetime (line 122). -/
def NEIfileDatetime_shift_BACKWARDto2017 (outpNEIfile_datetime : String) (outyear : ℤ) :
    Option String :=
  (strptimeYmdHMS outpNEIfile_datetime.toList).map fun t =>
    formatYmdHMS (shiftBACKWARDto2017Core t outyear)

/-- Modelled from the spec's words, for comparison in claim C7 only: a
string matches the fixed-width pattern `YYYY-MM-DD_HH:MM:SS` when it is
nineteen characters long, with digits in the digit positions and the
literal separators in between. -/
def matchesFixedWidthPattern (s : String) : Bool :=
  match s.toList with
  | [y1, y2, y3, y4, a1, m1, m2, a2, d1, d2, a3, h1, h2, a4, n1, n2, a5, c1, c2] =>
      y1.isDigit && y2.isDigit && y3.isDigit && y4.isDigit &&
      a1 == '-' && m1.isDigit && m2.isDigit && a2 == '-' &&
      d1.isDigit && d2.isDigit && a3 == '_' && h1.isDigit && h2.isDigit &&
      a4 == ':' && n1.isDigit && n2.isDigit && a5 == ':' && c1.isDigit && c2.isDigit
  | _ => false

/-- One data variable of the emissions dataset, for the scaling loop of
`scale_bb_emissions_by_mask` (lines 206-224).  Its values are grouped by
grid column: `cols[i]` lists every value whose `ncol` index is `i` (other
dimensions flattened); a variable without the `ncol` dimension keeps all
its values in whatever grouping it came with and is never rescaled. -/
structure DataVar where
  name : String
  dims : List String
  cols : List (List ℚ)
deriving DecidableEq

/-- Lines 206-224 of
`ne30CONUSne30x8_scale_emissions_by_Canadaregion_c20260212.py`: for each
data variable, skip it when its name is coordinate-like (`continue`), skip
it when `'ncol'` is not among its dimensions, and otherwise apply
`da.where(~mask_da, other=da * scalefactor)`, which keeps values at
columns where the mask is false and multiplies values at columns where the
mask is true. -/
def scale_bb_emissions_by_mask (coord_like_vars : List String) (mask_da : List Bool)
    (scalefactor : ℚ) (ds : List DataVar) : List DataVar :=
  ds.map fun v =>
    if v.name ∈ coord_like_vars then v
    else if "ncol" ∈ v.dims then
      { v with
        cols := List.zipWith
          (fun b col => if b then col.map (fun x => x * scalefactor) else col)
          mask_da v.cols }
    else v

/-- Seconds-since-epoch view of a datetime; Python comparison and
`timedelta` subtraction of two datetimes agree with this view. -/
def toSecs (t : DateTime) : ℤ :=
  86400 * toOrdinal t.date + 3600 * t.hour + 60 * t.minute + t.second

/-- Python `+ timedelta(hours=1)` on a valid datetime: bump the hour,
rolling into the next day after hour 23. -/
def addHour (t : DateTime) : DateTime :=
  if t.hour < 23 then ⟨t.date, t.hour + 1, t.minute, t.second⟩
  else ⟨succDay t.date, 0, t.minute, t.second⟩

/-- One expected file name,
`filedir + file_prefix + current_date.strftime('_%Y-%m-%d_%H:00:00')`
(lines 48-49): minutes and seconds are the literal `00:00`. -/
def expectedName (filedir file_pre : String) (t : DateTime) : String :=
  filedir ++ file_pre ++ "_" ++ padNum 4 t.date.year.toNat ++ "-"
    ++ padNum 2 t.date.month ++ "-" ++ padNum 2 t.date.day ++ "_"
    ++ padNum 2 t.hour ++ ":00:00"

/-- The `while current_date <= end_date` loop of `find_missing_files_v1`
(lines 45-50).  The `fuel` argument is only a termination bound; the
caller passes one more than the second count between the endpoints, which
the loop (advancing 3600 seconds per step) can never exhaust. -/
def expectedLoop (fuel : ℕ) (cur end_date : DateTime) (filedir file_pre : String) :
    List String :=
  match fuel with
  | 0 => []
  | f + 1 =>
    if toSecs cur ≤ toSecs end_date then
      expectedName filedir file_pre cur
        :: expectedLoop f (addHour cur) end_date filedir file_pre
    else []

/-- `find_missing_files_v1(startDatetime, endDatetime, filedir,
file_prefix)` (lines 41-71).  The on-disk probe (`open` /
`FileNotFoundError`, lines 54-60) is abstracted as the predicate
`fileOnDisk`; `none` models a `strptime` failure on either endpoint.  The
returned pair is `(missing_files, expected_files)`. -/
def find_missing_files_v1 (startDatetime endDatetime filedir file_pre : String)
    (fileOnDisk : String → Bool) : Option (List String × List String) :=
  match strptimeYmdHMS startDatetime.toList, strptimeYmdHMS endDatetime.toList with
  | some start_date, some end_date =>
    let expected_files := expectedLoop ((toSecs end_date - toSecs start_date).toNat + 1)
        start_date end_date filedir file_pre
    let missing_files := expected_files.filter (fun f => ! fileOnDisk f)
    some (missing_files, expected_files)
  | _, _ => none

theorem daysInMonth_pos (y : ℤ) (m : ℕ) : 1 ≤ daysInMonth y m := by
  unfold daysInMonth; split_ifs <;> omega

theorem daysInMonth_le (y : ℤ) (m : ℕ) : daysInMonth y m ≤ 31 := by
  unfold daysInMonth; split_ifs <;> omega

theorem predDay_spec (d : Date) (h : d.Valid) :
    (predDay d).Valid ∧ toOrdinal (predDay d) = toOrdinal d - 1 := by
  obtain ⟨y, m, dd⟩ := d
  unfold Date.Valid at h
  dsimp only at h
  obtain ⟨h1, h2, h3, h4⟩ := h
  by_cases hd : 1 < dd
  · unfold predDay
    dsimp only
    rw [if_pos hd]
    unfold Date.Valid toOrdinal
    dsimp only
    exact ⟨⟨h1, h2, by omega, by omega⟩, by omega⟩
  · have hdd : dd = 1 := by omega
    subst hdd
    by_cases hm : 1 < m
    · unfold predDay
      dsimp only
      rw [if_neg hd, if_pos hm]
      have h12 : m ≤ 12 := h2
      unfold Date.Valid toOrdinal
      dsimp only
      interval_cases m <;> by_cases hL : isLeap y <;>
        (norm_num [daysInMonth, daysBeforeMonthBase, hL] <;> omega)
    · have hm1 : m = 1 := by omega
      subst hm1
      unfold predDay
      dsimp only
      rw [if_neg hd, if_neg hm]
      constructor
      · unfold Date.Valid
        dsimp only
        norm_num [daysInMonth]
      · unfold toOrdinal
        dsimp only
        by_cases hL : isLeap (y - 1)
        · norm_num [daysBeforeMonthBase, daysBeforeYear, hL]
          unfold isLeap at hL
          omega
        · norm_num [daysBeforeMonthBase, daysBeforeYear, hL]
          unfold isLeap at hL
          omega

theorem succDay_spec (d : Date) (h : d.Valid) :
    (succDay d).Valid ∧ toOrdinal (succDay d) = toOrdinal d + 1 := by
  obtain ⟨y, m, dd⟩ := d
  unfold Date.Valid at h
  dsimp only at h
  obtain ⟨h1, h2, h3, h4⟩ := h
  by_cases hd : dd < daysInMonth y m
  · unfold succDay
    dsimp only
    rw [if_pos hd]
    unfold Date.Valid toOrdinal
    dsimp only
    exact ⟨⟨h1, h2, by omega, by omega⟩, by omega⟩
  · have hdd : dd = daysInMonth y m := by omega
    by_cases hm : m < 12
    · unfold succDay
      dsimp only
      rw [if_neg hd, if_pos hm]
      subst hdd
      unfold Date.Valid toOrdinal
      dsimp only
      interval_cases m <;> by_cases hL : isLeap y <;>
        (norm_num [daysInMonth, daysBeforeMonthBase, hL] <;> omega)
    · have hm12 : m = 12 := by omega
      subst hm12
      have hdd31 : dd = 31 := by
        rw [hdd]
        norm_num [daysInMonth]
      subst hdd31
      unfold succDay
      dsimp only
      rw [if_neg hd, if_neg hm]
      constructor
      · unfold Date.Valid
        dsimp only
        norm_num [daysInMonth]
      · unfold toOrdinal
        dsimp only
        by_cases hL : isLeap y
        · norm_num [daysBeforeMonthBase, daysBeforeYear, hL]
          unfold isLeap at hL
          omega
        · norm_num [daysBeforeMonthBase, daysBeforeYear, hL]
          unfold isLeap at hL
          omega

theorem predDay_iterate_spec (k : ℕ) (d : Date) (h : d.Valid) :
    (predDay^[k] d).Valid ∧ toOrdinal (predDay^[k] d) = toOrdinal d - k := by
  induction k with
  | zero => simpa using h
  | succ n ih =>
    rw [Function.iterate_succ_apply']
    obtain ⟨hv, he⟩ := ih
    obtain ⟨hv', he'⟩ := predDay_spec _ hv
    refine ⟨hv', ?_⟩
    rw [he', he]; push_cast; ring

theorem succDay_iterate_spec (k : ℕ) (d : Date) (h : d.Valid) :
    (succDay^[k] d).Valid ∧ toOrdinal (succDay^[k] d) = toOrdinal d + k := by
  induction k with
  | zero => simpa using h
  | succ n ih =>
    rw [Function.iterate_succ_apply']
    obtain ⟨hv, he⟩ := ih
    obtain ⟨hv', he'⟩ := succDay_spec _ hv
    refine ⟨hv', ?_⟩
    rw [he', he]; push_cast; ring

theorem addYears_valid (d : Date) (n : ℤ) (h : d.Valid) : (addYears d n).Valid := by
  obtain ⟨h1, h2, h3, h4⟩ := h
  unfold addYears Date.Valid
  dsimp only
  have := daysInMonth_pos (d.year + n) d.month
  exact ⟨h1, h2, by omega, by omega⟩

theorem addYears_year (d : Date) (n : ℤ) : (addYears d n).year = d.year + n := rfl

theorem shiftCore_spec (t : DateTime) (outyear : ℤ) (hv : t.date.Valid) :
    (shiftBYweekofdayCore t outyear).date.Valid ∧
      toOrdinal (shiftBYweekofdayCore t outyear).date =
        toOrdinal (addYears t.date (outyear - t.date.year)) -
          (toOrdinal (addYears t.date (outyear - t.date.year)) - toOrdinal t.date) % 7 := by
  have hval := addYears_valid t.date (outyear - t.date.year) hv
  obtain ⟨hv', he⟩ := predDay_iterate_spec
    (((toOrdinal (addYears t.date (outyear - t.date.year)) - toOrdinal t.date) % 7).toNat)
    _ hval
  unfold shiftBYweekofdayCore
  dsimp only
  exact ⟨hv', by rw [he]; omega⟩

theorem backCore_spec (t : DateTime) (outyear : ℤ) (hv : t.date.Valid) :
    (shiftBACKWARDto2017Core t outyear).date.Valid ∧
      toOrdinal (shiftBACKWARDto2017Core t outyear).date =
        toOrdinal (addYears t.date (-(t.date.year - 2017))) +
          (toOrdinal t.date - toOrdinal (addYears t.date (-(t.date.year - 2017)))) % 7 := by
  have hval := addYears_valid t.date (-(t.date.year - 2017)) hv
  obtain ⟨hv', he⟩ := succDay_iterate_spec
    (((toOrdinal t.date - toOrdinal (addYears t.date (-(t.date.year - 2017)))) % 7).toNat)
    _ hval
  unfold shiftBACKWARDto2017Core
  dsimp only
  exact ⟨hv', by rw [he]; omega⟩

theorem toOrdinal_range (d : Date) (h : d.Valid) :
    daysBeforeYear d.year + 1 ≤ toOrdinal d ∧ toOrdinal d ≤ daysBeforeYear (d.year + 1) := by
  obtain ⟨y, m, dd⟩ := d
  unfold Date.Valid at h
  dsimp only at h
  obtain ⟨h1, h2, h3, h4⟩ := h
  unfold toOrdinal daysBeforeYear
  dsimp only
  interval_cases m <;> by_cases hL : isLeap y <;>
    (norm_num [daysInMonth, daysBeforeMonthBase, hL] at h4 ⊢ <;>
      (unfold isLeap at hL; omega))

theorem daysBeforeYear_mono {a b : ℤ} (hab : a ≤ b) : daysBeforeYear a ≤ daysBeforeYear b := by
  unfold daysBeforeYear
  omega

theorem daysBeforeYear_step (z : ℤ) : daysBeforeYear (z - 1) + 365 ≤ daysBeforeYear z := by
  unfold daysBeforeYear
  omega

theorem predDay_iter_year (d : Date) (h : d.Valid) (k : ℕ) (hk : k ≤ 6) :
    (predDay^[k] d).year = d.year ∨ (predDay^[k] d).year = d.year - 1 := by
  obtain ⟨hv, he⟩ := predDay_iterate_spec k d h
  obtain ⟨hl, hu⟩ := toOrdinal_range d h
  obtain ⟨hl', hu'⟩ := toOrdinal_range _ hv
  by_contra hc
  push_neg at hc
  obtain ⟨hc1, hc2⟩ := hc
  rcases lt_trichotomy (predDay^[k] d).year d.year with hlt | heq | hgt
  · have hm1 : daysBeforeYear ((predDay^[k] d).year + 1) ≤ daysBeforeYear (d.year - 1) :=
      daysBeforeYear_mono (by omega)
    have hm2 := daysBeforeYear_step d.year
    omega
  · exact hc1 heq
  · have hm1 : daysBeforeYear (d.year + 1) ≤ daysBeforeYear (predDay^[k] d).year :=
      daysBeforeYear_mono (by omega)
    omega

theorem succDay_iter_year (d : Date) (h : d.Valid) (k : ℕ) (hk : k ≤ 6) :
    (succDay^[k] d).year = d.year ∨ (succDay^[k] d).year = d.year + 1 := by
  obtain ⟨hv, he⟩ := succDay_iterate_spec k d h
  obtain ⟨hl, hu⟩ := toOrdinal_range d h
  obtain ⟨hl', hu'⟩ := toOrdinal_range _ hv
  by_contra hc
  push_neg at hc
  obtain ⟨hc1, hc2⟩ := hc
  rcases lt_trichotomy (succDay^[k] d).year d.year with hlt | heq | hgt
  · have hm1 : daysBeforeYear ((succDay^[k] d).year + 1) ≤ daysBeforeYear d.year :=
      daysBeforeYear_mono (by omega)
    omega
  · exact hc1 heq
  · have hm1 : daysBeforeYear (d.year + 2) ≤ daysBeforeYear (succDay^[k] d).year :=
      daysBeforeYear_mono (by omega)
    have hm2 : daysBeforeYear (d.year + 1) + 365 ≤ daysBeforeYear (d.year + 2) := by
      unfold daysBeforeYear
      omega
    omega

theorem strptime_valid (cs : List Char) (t : DateTime)
    (h : strptimeYmdHMS cs = some t) :
    t.Valid ∧ 1 ≤ t.date.year ∧ t.date.year ≤ 9999 := by
  unfold strptimeYmdHMS at h
  cases hp : parseFields cs with
  | none => rw [hp] at h; exact absurd h (by simp)
  | some fields =>
    obtain ⟨y, m, d, hh, mi, s⟩ := fields
    rw [hp] at h
    dsimp only at h
    unfold mkDatetime at h
    split_ifs at h with hcond
    · obtain ⟨c1, c2, c3, c4, c5, c6, c7, c8, c9⟩ := hcond
      cases h
      unfold DateTime.Valid Date.Valid
      dsimp only
      refine ⟨⟨⟨c3, c4, c5, c6⟩, c7, c8, c9⟩, ?_, ?_⟩ <;> omega

theorem addHour_spec (t : DateTime) (h : t.Valid) :
    (addHour t).Valid ∧ toSecs (addHour t) = toSecs t + 3600 := by
  obtain ⟨hd, hh, hm, hs⟩ := h
  unfold addHour
  by_cases hlt : t.hour < 23
  · rw [if_pos hlt]
    unfold DateTime.Valid toSecs
    dsimp only
    exact ⟨⟨hd, by omega, hm, hs⟩, by push_cast; ring⟩
  · rw [if_neg hlt]
    have h23 : t.hour = 23 := by omega
    obtain ⟨hv', he'⟩ := succDay_spec t.date hd
    unfold DateTime.Valid toSecs
    dsimp only
    refine ⟨⟨hv', by omega, hm, hs⟩, ?_⟩
    rw [he', h23]
    push_cast
    ring

theorem addHour_iterate_spec (k : ℕ) (t : DateTime) (h : t.Valid) :
    (addHour^[k] t).Valid ∧ toSecs (addHour^[k] t) = toSecs t + 3600 * k := by
  induction k with
  | zero => simpa using h
  | succ n ih =>
    rw [Function.iterate_succ_apply']
    obtain ⟨hv, he⟩ := ih
    obtain ⟨hv', he'⟩ := addHour_spec _ hv
    refine ⟨hv', ?_⟩
    rw [he', he]
    push_cast
    ring

theorem expectedLoop_closed (filedir file_pre : String) (en : DateTime) :
    ∀ (fuel : ℕ) (cur : DateTime), cur.Valid →
      (toSecs en + 1 - toSecs cur).toNat ≤ fuel →
      expectedLoop fuel cur en filedir file_pre =
        (List.range (if toSecs cur ≤ toSecs en
            then ((toSecs en - toSecs cur) / 3600).toNat + 1 else 0)).map
          (fun k => expectedName filedir file_pre (addHour^[k] cur)) := by
  intro fuel
  induction fuel with
  | zero =>
    intro cur hv hb
    have hgt : ¬ toSecs cur ≤ toSecs en := by omega
    simp [expectedLoop, hgt]
  | succ f ih =>
    intro cur hv hb
    by_cases hle : toSecs cur ≤ toSecs en
    · obtain ⟨hv', he'⟩ := addHour_spec cur hv
      have hbound : (toSecs en + 1 - toSecs (addHour cur)).toNat ≤ f := by
        rw [he']; omega
      have hIH := ih (addHour cur) hv' hbound
      simp only [expectedLoop]
      rw [if_pos hle, hIH, he']
      have hn : (if toSecs cur ≤ toSecs en
            then ((toSecs en - toSecs cur) / 3600).toNat + 1 else 0)
          = (if toSecs cur + 3600 ≤ toSecs en
              then ((toSecs en - (toSecs cur + 3600)) / 3600).toNat + 1 else 0) + 1 := by
        split_ifs <;> omega
      rw [hn, List.range_succ_eq_map, List.map_cons, List.map_map]
      congr 1
    · have hgt : ¬ toSecs cur ≤ toSecs en := hle
      simp [expectedLoop, hgt]

theorem getElem?_zipWith_of_getElem? {α β γ : Type} (f : α → β → γ) :
    ∀ (l₁ : List α) (l₂ : List β) (i : ℕ) (a : α) (b : β),
      l₁[i]? = some a → l₂[i]? = some b → (List.zipWith f l₁ l₂)[i]? = some (f a b) := by
  intro l₁
  induction l₁ with
  | nil => intro l₂ i a b h1 h2; simp at h1
  | cons x xs ih =>
    intro l₂ i a b h1 h2
    cases l₂ with
    | nil => simp at h2
    | cons y ys =>
      cases i with
      | zero =>
        simp only [List.getElem?_cons_zero, Option.some.injEq] at h1 h2
        subst h1
        subst h2
        simp [List.zipWith]
      | succ n =>
        simp only [List.getElem?_cons_succ] at h1 h2
        simpa [List.zipWith] using ih ys n a b h1 h2

theorem early_in_year (R : Date) (hv : R.Valid)
    (hord : toOrdinal R ≤ daysBeforeYear R.year + 6) : R.month = 1 ∧ R.day ≤ 6 := by
  obtain ⟨ry, rm, rd⟩ := R
  unfold Date.Valid at hv
  dsimp only at hv
  obtain ⟨h1, h2, h3, h4⟩ := hv
  unfold toOrdinal at hord
  dsimp only at hord ⊢
  have hite : (0 : ℤ) ≤ if 2 < rm ∧ isLeap ry then 1 else 0 := by
    split_ifs <;> omega
  interval_cases rm <;>
    (norm_num [daysBeforeMonthBase] at hord hite ⊢ <;> omega)

theorem drop13_append (p tail : String) (hp : p.length = 13) :
    (p ++ tail).toList.drop 13 = tail.toList := by
  show ((p ++ tail).data).drop 13 = tail.data
  rw [String.data_append, ← hp]
  exact List.drop_left _ _

/-- C1: for every valid input filename whose characters from index 13
parse as `YYYY-MM-DD_HH:MM:SS` and every integer target year (larger
than, equal to, or smaller than the source year), the forward shift
`NEIfileDatetime_shift_BYweekofday` returns the filename built from the
adjusted timestamp, and that adjusted timestamp has the same weekday
(Monday = 0 .. Sunday = 6) as the source timestamp. -/
theorem forward_shift_preserves_weekday (inpNEIfile : String) (t : DateTime)
    (h : strptimeYmdHMS (inpNEIfile.toList.drop 13) = some t) (outyear : ℤ) :
    NEIfileDatetime_shift_BYweekofday inpNEIfile outyear =
      some ("wrfchemi_d01_" ++ formatYmdHMS (shiftBYweekofdayCore t outyear)) ∧
    weekday (shiftBYweekofdayCore t outyear).date = weekday t.date := by
  have hv := (strptime_valid _ _ h).1.1
  obtain ⟨_, he⟩ := shiftCore_spec t outyear hv
  constructor
  · unfold NEIfileDatetime_shift_BYweekofday
    rw [h]
    rfl
  · unfold weekday
    rw [he]
    omega

/-- Witness for C1 at the spec's concrete scenario (2017-08-01, a
Tuesday, shifted to 2020). -/
theorem forward_shift_preserves_weekday_witness :
    NEIfileDatetime_shift_BYweekofday "wrfchemi_d01_2017-08-01_01:00:00" 2020 =
      some ("wrfchemi_d01_" ++
        formatYmdHMS (shiftBYweekofdayCore ⟨⟨2017, 8, 1⟩, 1, 0, 0⟩ 2020)) ∧
    weekday (shiftBYweekofdayCore ⟨⟨2017, 8, 1⟩, 1, 0, 0⟩ 2020).date =
      weekday (⟨2017, 8, 1⟩ : Date) :=
  forward_shift_preserves_weekday "wrfchemi_d01_2017-08-01_01:00:00"
    ⟨⟨2017, 8, 1⟩, 1, 0, 0⟩ (by decide) 2020

/-- C2: composing the forward shift to any target year `Y` with the
backward shift (called with reference-year argument `ts.year`, which the
code ignores in favor of the constant 2017) yields a timestamp whose
weekday equals the source timestamp's weekday. -/
theorem roundtrip_preserves_weekday (s : String) (t : DateTime)
    (h : strptimeYmdHMS (s.toList.drop 13) = some t) (Y : ℤ) :
    weekday ((shiftBACKWARDto2017Core (shiftBYweekofdayCore t Y) t.date.year).date) =
      weekday t.date := by
  have hv := (strptime_valid _ _ h).1.1
  obtain ⟨hv1, he1⟩ := shiftCore_spec t Y hv
  obtain ⟨hv2, he2⟩ := backCore_spec (shiftBYweekofdayCore t Y) t.date.year hv1
  unfold weekday
  rw [he2, he1]
  omega

/-- Witness for C2 at the concrete scenario of C1. -/
theorem roundtrip_preserves_weekday_witness :
    weekday ((shiftBACKWARDto2017Core (shiftBYweekofdayCore ⟨⟨2017, 8, 1⟩, 1, 0, 0⟩ 2020)
        2017).date) = weekday (⟨2017, 8, 1⟩ : Date) :=
  roundtrip_preserves_weekday "wrfchemi_d01_2017-08-01_01:00:00"
    ⟨⟨2017, 8, 1⟩, 1, 0, 0⟩ (by decide) 2020

/-- C3 counterexample: `NEIfileDatetime_shift_BACKWARDto2017` called with
reference-year argument 2018 on the adjusted timestamp 2020-08-04 returns
a timestamp in year 2017, not 2018 — and 2017-08-08 is 146 days before
2018-01-01, far beyond the at-most-6-day week-alignment adjustment, so
the returned year does not equal the supplied reference year. -/
theorem backward_refyear_counterexample :
    NEIfileDatetime_shift_BACKWARDto2017 "2020-08-04_01:00:00" 2018 =
      some "2017-08-08_01:00:00" ∧
    (shiftBACKWARDto2017Core ⟨⟨2020, 8, 4⟩, 1, 0, 0⟩ 2018).date.year = 2017 ∧
    toOrdinal ⟨2018, 1, 1⟩ -
      toOrdinal (shiftBACKWARDto2017Core ⟨⟨2020, 8, 4⟩, 1, 0, 0⟩ 2018).date = 146 := by
  decide

/-- C3 amended: the inverse shift ignores its second argument entirely
and computes its year offset as `adjusted_timestamp.year - 2017`; the
returned timestamp's year therefore equals the constant 2017 — or 2018
within the first six days of January, when the week-alignment adjustment
crosses the year boundary. -/
theorem backward_uses_fixed_2017 (outpNEIfile_datetime : String) (t : DateTime)
    (h : strptimeYmdHMS outpNEIfile_datetime.toList = some t) (outyear : ℤ) :
    (∀ o1 o2 : ℤ, NEIfileDatetime_shift_BACKWARDto2017 outpNEIfile_datetime o1 =
      NEIfileDatetime_shift_BACKWARDto2017 outpNEIfile_datetime o2) ∧
    ((shiftBACKWARDto2017Core t outyear).date.year = 2017 ∨
      ((shiftBACKWARDto2017Core t outyear).date.year = 2018 ∧
        (shiftBACKWARDto2017Core t outyear).date.month = 1 ∧
        (shiftBACKWARDto2017Core t outyear).date.day ≤ 6)) := by
  have hv := (strptime_valid _ _ h).1.1
  refine ⟨fun o1 o2 => rfl, ?_⟩
  have hvInp := addYears_valid t.date (-(t.date.year - 2017)) hv
  have hyInp : (addYears t.date (-(t.date.year - 2017))).year = 2017 := by
    rw [addYears_year]; ring
  unfold shiftBACKWARDto2017Core
  dsimp only
  set r := ((toOrdinal t.date - toOrdinal (addYears t.date (-(t.date.year - 2017)))) % 7).toNat
    with hrdef
  have hr6 : r ≤ 6 := by rw [hrdef]; omega
  obtain ⟨hvR, heR⟩ := succDay_iterate_spec r _ hvInp
  rcases succDay_iter_year _ hvInp r hr6 with hy | hy
  · left
    rw [hy, hyInp]
  · right
    have hy2018 : (succDay^[r] (addYears t.date (-(t.date.year - 2017)))).year = 2018 := by
      rw [hy, hyInp]
      norm_num
    obtain ⟨hu1, hu2⟩ := toOrdinal_range _ hvInp
    have hstep : (addYears t.date (-(t.date.year - 2017))).year + 1 = 2018 := by
      rw [hyInp]
      norm_num
    rw [hstep] at hu2
    have hord : toOrdinal (succDay^[r] (addYears t.date (-(t.date.year - 2017)))) ≤
        daysBeforeYear ((succDay^[r] (addYears t.date (-(t.date.year - 2017)))).year) + 6 := by
      rw [hy2018, heR]
      omega
    obtain ⟨hm1, hd6⟩ := early_in_year _ hvR hord
    exact ⟨hy2018, hm1, hd6⟩

/-- Witness for C3 amended, on a mid-year adjusted timestamp. -/
theorem backward_uses_fixed_2017_witness :
    (∀ o1 o2 : ℤ, NEIfileDatetime_shift_BACKWARDto2017 "2020-08-04_01:00:00" o1 =
      NEIfileDatetime_shift_BACKWARDto2017 "2020-08-04_01:00:00" o2) ∧
    ((shiftBACKWARDto2017Core ⟨⟨2020, 8, 4⟩, 1, 0, 0⟩ 2018).date.year = 2017 ∨
      ((shiftBACKWARDto2017Core ⟨⟨2020, 8, 4⟩, 1, 0, 0⟩ 2018).date.year = 2018 ∧
        (shiftBACKWARDto2017Core ⟨⟨2020, 8, 4⟩, 1, 0, 0⟩ 2018).date.month = 1 ∧
        (shiftBACKWARDto2017Core ⟨⟨2020, 8, 4⟩, 1, 0, 0⟩ 2018).date.day ≤ 6)) :=
  backward_uses_fixed_2017 "2020-08-04_01:00:00" ⟨⟨2020, 8, 4⟩, 1, 0, 0⟩ (by decide) 2018

/-- C4: for every valid adjusted timestamp string,
`NEIfileDatetime_shift_BACKWARDto2017` returns the formatted
reconstructed timestamp, and that reconstructed timestamp has the same
weekday as the input adjusted timestamp. -/
theorem backward_preserves_weekday (s : String) (t : DateTime)
    (h : strptimeYmdHMS s.toList = some t) (outyear : ℤ) :
    NEIfileDatetime_shift_BACKWARDto2017 s outyear =
      some (formatYmdHMS (shiftBACKWARDto2017Core t outyear)) ∧
    weekday (shiftBACKWARDto2017Core t outyear).date = weekday t.date := by
  have hv := (strptime_valid _ _ h).1.1
  obtain ⟨_, he⟩ := backCore_spec t outyear hv
  constructor
  · unfold NEIfileDatetime_shift_BACKWARDto2017
    rw [h]
    rfl
  · unfold weekday
    rw [he]
    omega

/-- Witness for C4. -/
theorem backward_preserves_weekday_witness :
    NEIfileDatetime_shift_BACKWARDto2017 "2020-08-04_01:00:00" 2020 =
      some (formatYmdHMS (shiftBACKWARDto2017Core ⟨⟨2020, 8, 4⟩, 1, 0, 0⟩ 2020)) ∧
    weekday (shiftBACKWARDto2017Core ⟨⟨2020, 8, 4⟩, 1, 0, 0⟩ 2020).date =
      weekday (⟨2020, 8, 4⟩ : Date) :=
  backward_preserves_weekday "2020-08-04_01:00:00" ⟨⟨2020, 8, 4⟩, 1, 0, 0⟩ (by decide) 2020

/-- C5: the remaining-days value of the forward shift is a floored
(always non-negative) modulo-7 residue in `[0, 6]`, the adjusted
timestamp's ordinal equals the naive year-shifted timestamp's ordinal
minus exactly that residue, and the adjusted year is the target year or
the immediately preceding one (never later). -/
theorem forward_shift_remaining_days (s : String) (t : DateTime)
    (h : strptimeYmdHMS (s.toList.drop 13) = some t) (outyear : ℤ) :
    0 ≤ (toOrdinal (addYears t.date (outyear - t.date.year)) - toOrdinal t.date) % 7 ∧
    (toOrdinal (addYears t.date (outyear - t.date.year)) - toOrdinal t.date) % 7 ≤ 6 ∧
    toOrdinal (shiftBYweekofdayCore t outyear).date =
      toOrdinal (addYears t.date (outyear - t.date.year)) -
        (toOrdinal (addYears t.date (outyear - t.date.year)) - toOrdinal t.date) % 7 ∧
    ((shiftBYweekofdayCore t outyear).date.year = outyear ∨
      (shiftBYweekofdayCore t outyear).date.year = outyear - 1) := by
  have hv := (strptime_valid _ _ h).1.1
  obtain ⟨hv', he⟩ := shiftCore_spec t outyear hv
  refine ⟨by omega, by omega, he, ?_⟩
  have hvOut := addYears_valid t.date (outyear - t.date.year) hv
  have hyOut : (addYears t.date (outyear - t.date.year)).year = outyear := by
    rw [addYears_year]; ring
  unfold shiftBYweekofdayCore
  dsimp only
  rcases predDay_iter_year (addYears t.date (outyear - t.date.year)) hvOut
      (((toOrdinal (addYears t.date (outyear - t.date.year)) - toOrdinal t.date) % 7).toNat)
      (by omega) with hy | hy
  · left
    rw [hy, hyOut]
  · right
    rw [hy, hyOut]

/-- Witness for C5, shifting backward across years (2020 to 2017). -/
theorem forward_shift_remaining_days_witness :
    0 ≤ (toOrdinal (addYears (⟨2020, 1, 1⟩ : Date) (2017 - 2020)) -
        toOrdinal (⟨2020, 1, 1⟩ : Date)) % 7 ∧
    (toOrdinal (addYears (⟨2020, 1, 1⟩ : Date) (2017 - 2020)) -
        toOrdinal (⟨2020, 1, 1⟩ : Date)) % 7 ≤ 6 ∧
    toOrdinal (shiftBYweekofdayCore ⟨⟨2020, 1, 1⟩, 0, 0, 0⟩ 2017).date =
      toOrdinal (addYears (⟨2020, 1, 1⟩ : Date) (2017 - 2020)) -
        (toOrdinal (addYears (⟨2020, 1, 1⟩ : Date) (2017 - 2020)) -
          toOrdinal (⟨2020, 1, 1⟩ : Date)) % 7 ∧
    ((shiftBYweekofdayCore ⟨⟨2020, 1, 1⟩, 0, 0, 0⟩ 2017).date.year = 2017 ∨
      (shiftBYweekofdayCore ⟨⟨2020, 1, 1⟩, 0, 0, 0⟩ 2017).date.year = 2017 - 1) :=
  forward_shift_remaining_days "wrfchemi_d01_2020-01-01_00:00:00"
    ⟨⟨2020, 1, 1⟩, 0, 0, 0⟩ (by decide) 2017

/-- C6: shifting a February 29 source date to a non-leap target year
deterministically clamps the naive year-shifted date to February 28 of
the target year (the `relativedelta` day-clamping policy), and the
forward shift then applies its week-alignment adjustment to that clamped
date; being a pure function, the same input always reproduces the same
result. -/
theorem feb29_clamped_to_feb28 (t : DateTime) (outyear : ℤ)
    (hm : t.date.month = 2) (hd : t.date.day = 29) (hnl : ¬ isLeap outyear) :
    addYears t.date (outyear - t.date.year) = ⟨outyear, 2, 28⟩ ∧
    shiftBYweekofdayCore t outyear =
      ⟨predDay^[((toOrdinal (⟨outyear, 2, 28⟩ : Date) - toOrdinal t.date) % 7).toNat]
        (⟨outyear, 2, 28⟩ : Date), t.hour, t.minute, t.second⟩ := by
  have hy : t.date.year + (outyear - t.date.year) = outyear := by ring
  have h1 : addYears t.date (outyear - t.date.year) = ⟨outyear, 2, 28⟩ := by
    unfold addYears
    rw [hm, hd, hy]
    have h28 : daysInMonth outyear 2 = 28 := by
      unfold daysInMonth
      rw [if_pos rfl, if_neg hnl]
    rw [h28, (by omega : min 29 28 = 28)]
  refine ⟨h1, ?_⟩
  unfold shiftBYweekofdayCore
  dsimp only
  rw [h1]

/-- Witness for C6: 2020-02-29 shifted to the non-leap year 2017. -/
theorem feb29_clamped_to_feb28_witness :
    addYears (⟨2020, 2, 29⟩ : Date) (2017 - 2020) = ⟨2017, 2, 28⟩ ∧
    shiftBYweekofdayCore ⟨⟨2020, 2, 29⟩, 0, 0, 0⟩ 2017 =
      ⟨predDay^[((toOrdinal (⟨2017, 2, 28⟩ : Date) -
          toOrdinal (⟨2020, 2, 29⟩ : Date)) % 7).toNat]
        (⟨2017, 2, 28⟩ : Date), 0, 0, 0⟩ :=
  feb29_clamped_to_feb28 ⟨⟨2020, 2, 29⟩, 0, 0, 0⟩ 2017 rfl rfl (by decide)

/-- C7 counterexample: `'2017-1-1_0:0:0'` does not match the fixed-width
pattern `YYYY-MM-DD_HH:MM:SS`, yet the forward shift parses it without
error (CPython `strptime` accepts one- or two-digit month, day, hour,
minute and second fields), so the shift does not fail exactly on
non-fixed-width inputs. -/
theorem parse_accepts_nonfixedwidth_counterexample :
    matchesFixedWidthPattern "2017-1-1_0:0:0" = false ∧
    NEIfileDatetime_shift_BYweekofday ("wrfchemi_d01_" ++ "2017-1-1_0:0:0") 2017 =
      some "wrfchemi_d01_2017-01-01_00:00:00" := by
  decide

/-- C7 amended: the forward shift fails exactly when the substring of the
input starting at index 13 is rejected by `strptime` with format
`'%Y-%m-%d_%H:%M:%S'` (which accepts the fixed-width pattern but also
narrower month, day, hour, minute and second fields); the first 13
characters are never parsed, so two
inputs sharing the same tail fail or succeed together regardless of their
prefixes. -/
theorem parse_failure_condition (outyear : ℤ) :
    (∀ s : String, NEIfileDatetime_shift_BYweekofday s outyear = none ↔
      strptimeYmdHMS (s.toList.drop 13) = none) ∧
    (∀ p q tail : String, p.length = 13 → q.length = 13 →
      (NEIfileDatetime_shift_BYweekofday (p ++ tail) outyear = none ↔
        NEIfileDatetime_shift_BYweekofday (q ++ tail) outyear = none)) := by
  constructor
  · intro s
    unfold NEIfileDatetime_shift_BYweekofday
    cases strptimeYmdHMS (s.toList.drop 13) <;> simp
  · intro p q tail hp hq
    unfold NEIfileDatetime_shift_BYweekofday
    rw [drop13_append p tail hp, drop13_append q tail hq]

/-- Witness for C7 amended, at a parsing input and a pair of 13-character
prefixes sharing one tail. -/
theorem parse_failure_condition_witness :
    (NEIfileDatetime_shift_BYweekofday "wrfchemi_d01_2017-08-01_01:00:00" 2020 = none ↔
      strptimeYmdHMS ("wrfchemi_d01_2017-08-01_01:00:00".toList.drop 13) = none) ∧
    (NEIfileDatetime_shift_BYweekofday ("wrfchemi_d01_" ++ "2017-08-01_01:00:00") 2020 = none ↔
      NEIfileDatetime_shift_BYweekofday ("AAAAAAAAAAAAA" ++ "2017-08-01_01:00:00") 2020 =
        none) :=
  ⟨(parse_failure_condition 2020).1 "wrfchemi_d01_2017-08-01_01:00:00",
   (parse_failure_condition 2020).2 "wrfchemi_d01_" "AAAAAAAAAAAAA" "2017-08-01_01:00:00"
     (by decide) (by decide)⟩

/-- C8 counterexample: two inputs that differ only in their 13-character
prefix produce identical outputs, both carrying the hard-coded prefix
`'wrfchemi_d01_'` of line 68, so the output prefix does not follow the
input's prefix. -/
theorem output_prefix_counterexample :
    "AAAAAAAAAAAAA" ≠ "wrfchemi_d01_" ∧
    NEIfileDatetime_shift_BYweekofday ("AAAAAAAAAAAAA" ++ "2017-08-01_01:00:00") 2020 =
      NEIfileDatetime_shift_BYweekofday ("wrfchemi_d01_" ++ "2017-08-01_01:00:00") 2020 ∧
    NEIfileDatetime_shift_BYweekofday ("AAAAAAAAAAAAA" ++ "2017-08-01_01:00:00") 2020 =
      some "wrfchemi_d01_2020-07-28_01:00:00" := by
  decide

/-- C8 amended: for every valid input, the output is the adjusted
timestamp rendered in the `YYYY-MM-DD_HH:MM:SS` pattern reassembled after
the constant prefix `'wrfchemi_d01_'`, whatever the input's 13-character
prefix was. -/
theorem output_prefix_is_constant (p tail : String) (hp : p.length = 13) (outyear : ℤ) :
    NEIfileDatetime_shift_BYweekofday (p ++ tail) outyear =
      (strptimeYmdHMS tail.toList).map
        (fun t => "wrfchemi_d01_" ++ formatYmdHMS (shiftBYweekofdayCore t outyear)) := by
  unfold NEIfileDatetime_shift_BYweekofday
  rw [drop13_append p tail hp]

/-- Witness for C8 amended. -/
theorem output_prefix_is_constant_witness :
    NEIfileDatetime_shift_BYweekofday ("AAAAAAAAAAAAA" ++ "2017-08-01_01:00:00") 2020 =
      (strptimeYmdHMS "2017-08-01_01:00:00".toList).map
        (fun t => "wrfchemi_d01_" ++ formatYmdHMS (shiftBYweekofdayCore t 2020)) :=
  output_prefix_is_constant "AAAAAAAAAAAAA" "2017-08-01_01:00:00" (by decide) 2020

/-- C9: in `scale_bb_emissions_by_mask`, a data variable that is
coordinate-like or lacks the `ncol` dimension is returned unchanged;
every other variable keeps its name and dimensions, and at each grid
column its values are multiplied by the scale factor when the mask is
true there and kept unchanged when the mask is false there. -/
theorem scale_bb_emissions_by_mask_spec (coord_like_vars : List String)
    (mask_da : List Bool) (scalefactor : ℚ) (ds : List DataVar) (j : ℕ) (v : DataVar)
    (hj : ds[j]? = some v) :
    ((v.name ∈ coord_like_vars ∨ "ncol" ∉ v.dims) →
      (scale_bb_emissions_by_mask coord_like_vars mask_da scalefactor ds)[j]? = some v) ∧
    (v.name ∉ coord_like_vars → "ncol" ∈ v.dims →
      (scale_bb_emissions_by_mask coord_like_vars mask_da scalefactor ds)[j]? =
        some { v with cols := List.zipWith (fun b col =>
            if b then col.map (fun x => x * scalefactor) else col) mask_da v.cols } ∧
      ∀ (i : ℕ) (b : Bool) (col : List ℚ), mask_da[i]? = some b → v.cols[i]? = some col →
        (List.zipWith (fun b col => if b then col.map (fun x => x * scalefactor) else col)
            mask_da v.cols)[i]? =
          some (if b then col.map (fun x => x * scalefactor) else col)) := by
  unfold scale_bb_emissions_by_mask
  rw [List.getElem?_map, hj]
  constructor
  · intro hcase
    by_cases hname : v.name ∈ coord_like_vars
    · simp [hname]
    · have hncol : "ncol" ∉ v.dims := by
        rcases hcase with hc | hc
        · exact absurd hc hname
        · exact hc
      simp [hname, hncol]
  · intro hname hncol
    refine ⟨by simp [hname, hncol], ?_⟩
    intro i b col hb hcol
    exact getElem?_zipWith_of_getElem? _ _ _ _ _ _ hb hcol

/-- Witness for C9 on a two-column dataset with one variable. -/
theorem scale_bb_emissions_by_mask_spec_witness :
    (((⟨"CO", ["ncol"], [[1], [2]]⟩ : DataVar).name ∈ ["time"] ∨
        "ncol" ∉ (⟨"CO", ["ncol"], [[1], [2]]⟩ : DataVar).dims) →
      (scale_bb_emissions_by_mask ["time"] [true, false] 2
          [⟨"CO", ["ncol"], [[1], [2]]⟩])[0]? = some ⟨"CO", ["ncol"], [[1], [2]]⟩) ∧
    ((⟨"CO", ["ncol"], [[1], [2]]⟩ : DataVar).name ∉ ["time"] →
      "ncol" ∈ (⟨"CO", ["ncol"], [[1], [2]]⟩ : DataVar).dims →
      (scale_bb_emissions_by_mask ["time"] [true, false] 2
          [⟨"CO", ["ncol"], [[1], [2]]⟩])[0]? =
        some ⟨"CO", ["ncol"], List.zipWith (fun b col =>
            if b then col.map (fun x => x * 2) else col) [true, false] [[1], [2]]⟩ ∧
      ∀ (i : ℕ) (b : Bool) (col : List ℚ),
        [true, false][i]? = some b → [[1], [2]][i]? = some col →
        (List.zipWith (fun b col => if b then col.map (fun x => x * 2) else col)
            [true, false] [[1], [2]])[i]? =
          some (if b then col.map (fun x => x * 2) else col)) :=
  scale_bb_emissions_by_mask_spec ["time"] [true, false] 2
    [⟨"CO", ["ncol"], [[1], [2]]⟩] 0 ⟨"CO", ["ncol"], [[1], [2]]⟩ rfl

/-- C10: when both endpoints parse and start is not after end, the
expected-files list of `find_missing_files_v1` has exactly
`1 + (end - start) / 1 hour` entries, its `k`-th entry names the
timestamp `start + k hours` with minutes and seconds rendered as the
literal `00:00` whatever the start time's minute and second were; when
start is after end both returned lists are empty; and the missing list is
always the order-preserving sublist of the expected list selected by the
on-disk probe. -/
theorem find_missing_files_v1_spec (startDatetime endDatetime filedir file_pre : String)
    (fileOnDisk : String → Bool) (start_date end_date : DateTime)
    (hs : strptimeYmdHMS startDatetime.toList = some start_date)
    (hee : strptimeYmdHMS endDatetime.toList = some end_date) :
    ∃ missing_files expected_files : List String,
      find_missing_files_v1 startDatetime endDatetime filedir file_pre fileOnDisk =
        some (missing_files, expected_files) ∧
      missing_files = expected_files.filter (fun f => ! fileOnDisk f) ∧
      missing_files.Sublist expected_files ∧
      (toSecs start_date ≤ toSecs end_date →
        expected_files.length = ((toSecs end_date - toSecs start_date) / 3600).toNat + 1) ∧
      (toSecs end_date < toSecs start_date → expected_files = [] ∧ missing_files = []) ∧
      (∀ k : ℕ, k < expected_files.length →
        expected_files[k]? = some (expectedName filedir file_pre (addHour^[k] start_date)) ∧
        toSecs (addHour^[k] start_date) = toSecs start_date + 3600 * k) ∧
      (∀ (d : Date) (hh m1 s1 m2 s2 : ℕ),
        expectedName filedir file_pre ⟨d, hh, m1, s1⟩ =
          expectedName filedir file_pre ⟨d, hh, m2, s2⟩) := by
  have hvS := (strptime_valid _ _ hs).1
  have hclosed := expectedLoop_closed filedir file_pre end_date
    ((toSecs end_date - toSecs start_date).toNat + 1) start_date hvS (by omega)
  unfold find_missing_files_v1
  rw [hs, hee]
  dsimp only
  refine ⟨_, _, rfl, rfl, List.filter_sublist _, ?_, ?_, ?_, fun d hh m1 s1 m2 s2 => rfl⟩
  · intro hle
    rw [hclosed, if_pos hle, List.length_map, List.length_range]
  · intro hlt
    have hgt : ¬ toSecs start_date ≤ toSecs end_date := by omega
    rw [hclosed, if_neg hgt]
    simp
  · intro k hk
    refine ⟨?_, (addHour_iterate_spec k start_date hvS).2⟩
    rw [hclosed] at hk ⊢
    by_cases hle : toSecs start_date ≤ toSecs end_date
    · rw [if_pos hle] at hk ⊢
      rw [List.length_map, List.length_range] at hk
      rw [List.getElem?_map, List.getElem?_range hk]
      rfl
    · rw [if_neg hle] at hk
      simp at hk

/-- Witness for C10 on the docstring's example range (45 hours apart). -/
theorem find_missing_files_v1_spec_witness :
    ∃ missing_files expected_files : List String,
      find_missing_files_v1 "2018-07-01_03:00:00" "2018-07-03_00:00:00" "/d/" "wrfchemi_d01"
        (fun _ => false) = some (missing_files, expected_files) ∧
      missing_files = expected_files.filter (fun f => ! (fun _ => false) f) ∧
      missing_files.Sublist expected_files ∧
      (toSecs ⟨⟨2018, 7, 1⟩, 3, 0, 0⟩ ≤ toSecs ⟨⟨2018, 7, 3⟩, 0, 0, 0⟩ →
        expected_files.length =
          ((toSecs ⟨⟨2018, 7, 3⟩, 0, 0, 0⟩ - toSecs ⟨⟨2018, 7, 1⟩, 3, 0, 0⟩) / 3600).toNat + 1) ∧
      (toSecs ⟨⟨2018, 7, 3⟩, 0, 0, 0⟩ < toSecs ⟨⟨2018, 7, 1⟩, 3, 0, 0⟩ →
        expected_files = [] ∧ missing_files = []) ∧
      (∀ k : ℕ, k < expected_files.length →
        expected_files[k]? =
          some (expectedName "/d/" "wrfchemi_d01" (addHour^[k] ⟨⟨2018, 7, 1⟩, 3, 0, 0⟩)) ∧
        toSecs (addHour^[k] ⟨⟨2018, 7, 1⟩, 3, 0, 0⟩) =
          toSecs ⟨⟨2018, 7, 1⟩, 3, 0, 0⟩ + 3600 * k) ∧
      (∀ (d : Date) (hh m1 s1 m2 s2 : ℕ),
        expectedName "/d/" "wrfchemi_d01" ⟨d, hh, m1, s1⟩ =
          expectedName "/d/" "wrfchemi_d01" ⟨d, hh, m2, s2⟩) :=
  find_missing_files_v1_spec "2018-07-01_03:00:00" "2018-07-03_00:00:00" "/d/" "wrfchemi_d01"
    (fun _ => false) ⟨⟨2018, 7, 1⟩, 3, 0, 0⟩ ⟨⟨2018, 7, 3⟩, 0, 0, 0⟩ (by decide) (by decide)
